import Mathlib

/-!
Verification development for the scrap_yard repository: a shallow embedding
of the catalog, signaling, file-transfer and local-serving code, with
theorems settling the stated properties of the specification.

Bytes are modelled as natural numbers below 256; base64 text is modelled as
the list of alphabet indices (0..63) with 64 standing for the padding
character, since the alphabet itself is a fixed bijection between indices
and characters.
-/

namespace ScrapYard

set_option autoImplicit false

/-! ## Base64 framing (transfer.js: btoa on the sender, atob on the receiver)

`sendFile` converts each 64 KiB slice of the file bytes to a binary string
and calls `btoa`; `handleFileChunk` calls `atob` and reads the char codes
back into bytes.  `b64encode`/`b64decode` model that pair at the level of
base64 alphabet indices. -/

/-- Encode a byte list into base64 symbol indices (0..63; 64 is padding). -/
def b64encode : List Nat → List Nat
  | [] => []
  | [a] => [a / 4, a % 4 * 16, 64, 64]
  | [a, b] => [a / 4, a % 4 * 16 + b / 16, b % 16 * 4, 64]
  | a :: b :: c :: rest =>
      a / 4 :: (a % 4 * 16 + b / 16) :: (b % 16 * 4 + c / 64) :: c % 64 ::
        b64encode rest

/-- Decode base64 symbol indices back into bytes (inverse of `b64encode`). -/
def b64decode : List Nat → List Nat
  | w :: x :: y :: z :: rest =>
      if y = 64 then [w * 4 + x / 16]
      else if z = 64 then [w * 4 + x / 16, x % 16 * 16 + y / 4]
      else (w * 4 + x / 16) :: (x % 16 * 16 + y / 4) :: (y % 4 * 64 + z) ::
        b64decode rest
  | _ => []

theorem b64_roundtrip : ∀ l : List Nat, (∀ b ∈ l, b < 256) →
    b64decode (b64encode l) = l
  | [], _ => rfl
  | [a], h => by
      have ha : a < 256 := h a (by simp)
      simp [b64encode, b64decode]
      omega
  | [a, b], h => by
      have ha : a < 256 := h a (by simp)
      have hb : b < 256 := h b (by simp)
      have hy : ¬ b % 16 * 4 = 64 := by omega
      simp [b64encode, b64decode, hy]
      omega
  | a :: b :: c :: meat, h => by
      have ha : a < 256 := h a (by simp)
      have hb : b < 256 := h b (by simp)
      have hc : c < 256 := h c (by simp)
      have hy : ¬ b % 16 * 4 + c / 64 = 64 := by omega
      have hz : ¬ c % 64 = 64 := by omega
      have ih := b64_roundtrip meat (fun x hx => h x (by simp [hx]))
      simp [b64encode, b64decode, hy, hz, ih]
      omega

/-! ## Chunking (transfer.js sendFile): slices of CHUNK_SIZE = 64 * 1024 -/

/-- The chunk size constant from transfer.js (64 KiB). -/
def CHUNK_SIZE : Nat := 64 * 1024

/-- Fuelled splitter: peel CHUNK_SIZE bytes per step (fuel covers length). -/
def chunksGo : Nat → List Nat → List (List Nat)
  | _, [] => []
  | 0, _ => []
  | fuel + 1, l => l.take CHUNK_SIZE :: chunksGo fuel (l.drop CHUNK_SIZE)

/-- Split a byte list into consecutive slices of at most CHUNK_SIZE bytes,
mirroring the slicing loop of sendFile. -/
def chunksOf (l : List Nat) : List (List Nat) := chunksGo l.length l

theorem chunksGo_join : ∀ (fuel : Nat) (l : List Nat), l.length ≤ fuel →
    (chunksGo fuel l).flatten = l
  | _, [], _ => by cases ‹Nat› <;> rfl
  | 0, a :: t, h => by simp at h
  | fuel + 1, a :: t, h => by
      have hlen : ((a :: t).drop CHUNK_SIZE).length ≤ fuel := by
        simp only [List.length_drop]
        have : (a :: t).length ≤ fuel + 1 := h
        have hck : 1 ≤ CHUNK_SIZE := by decide
        omega
      simp only [chunksGo, List.flatten_cons, chunksGo_join fuel _ hlen]
      exact List.take_append_drop _ _

theorem chunksOf_join (l : List Nat) : (chunksOf l).flatten = l :=
  chunksGo_join l.length l (Nat.le_refl _)

theorem chunksGo_length_le : ∀ (fuel : Nat) (l : List Nat),
    ∀ c ∈ chunksGo fuel l, c.length ≤ CHUNK_SIZE
  | _, [] => by cases ‹Nat› <;> simp [chunksGo]
  | 0, _ :: _ => by simp [chunksGo]
  | fuel + 1, a :: t => by
      intro c hc
      simp only [chunksGo, List.mem_cons] at hc
      rcases hc with h | h
      · subst h
        simp
      · exact chunksGo_length_le fuel _ c h

theorem chunksGo_mem_bytes : ∀ (fuel : Nat) (l : List Nat),
    (∀ b ∈ l, b < 256) → ∀ c ∈ chunksGo fuel l, ∀ b ∈ c, b < 256
  | _, [], _ => by cases ‹Nat› <;> simp [chunksGo]
  | 0, _ :: _, _ => by simp [chunksGo]
  | fuel + 1, a :: t, h => by
      intro c hc
      simp only [chunksGo, List.mem_cons] at hc
      rcases hc with hcase | hcase
      · subst hcase
        intro b hb
        exact h b (List.take_subset _ _ hb)
      · exact chunksGo_mem_bytes fuel _
          (fun b hb => h b (List.drop_subset _ _ hb)) c hcase

/-- The base64 payloads of the file-chunk messages emitted by sendFile for a
file whose content is the given byte list. -/
def sendFilePayloads (bytes : List Nat) : List (List Nat) :=
  (chunksOf bytes).map b64encode

theorem sendFilePayloads_decode_eq (bytes : List Nat)
    (hb : ∀ b ∈ bytes, b < 256) :
    (sendFilePayloads bytes).map b64decode = chunksOf bytes := by
  unfold sendFilePayloads
  rw [List.map_map]
  have hchunks : ∀ c ∈ chunksOf bytes, (b64decode ∘ b64encode) c = id c :=
    fun c hc =>
      b64_roundtrip c (chunksGo_mem_bytes bytes.length bytes hb c hc)
  rw [List.map_congr_left hchunks, List.map_id]

/-- C4: for every file sent by the sender, the base64-decoded concatenation
of the file-chunk payloads emitted between file-start and file-end equals
the source file bytes, and every individual chunk payload decodes to at
most 65536 bytes. -/
theorem chunk_framing_roundtrip (bytes : List Nat)
    (hb : ∀ b ∈ bytes, b < 256) :
    ((sendFilePayloads bytes).map b64decode).flatten = bytes ∧
    ∀ p ∈ sendFilePayloads bytes, (b64decode p).length ≤ 65536 := by
  constructor
  · rw [sendFilePayloads_decode_eq bytes hb, chunksOf_join]
  · intro p hp
    unfold sendFilePayloads at hp
    rcases List.mem_map.1 hp with ⟨c, hc, rfl⟩
    rw [b64_roundtrip c (chunksGo_mem_bytes bytes.length bytes hb c hc)]
    have := chunksGo_length_le bytes.length bytes c hc
    simpa [CHUNK_SIZE] using this

theorem chunk_framing_roundtrip_witness :
    (∀ b ∈ [10, 200, 7, 0, 255], b < 256) ∧
    ((sendFilePayloads [10, 200, 7, 0, 255]).map b64decode).flatten
      = [10, 200, 7, 0, 255] ∧
    ∀ p ∈ sendFilePayloads [10, 200, 7, 0, 255],
      (b64decode p).length ≤ 65536 :=
  ⟨by decide, chunk_framing_roundtrip [10, 200, 7, 0, 255] (by decide)⟩

/-! ## Signaling client reconnect state machine (ledger.js SignalingClient)

handleDisconnect reads shouldReconnect and reconnectAttempts, schedules a
retry with an exponential delay capped at maxDelay, and gives up after
maxReconnectAttempts, emitting the corresponding events. -/

/-- Constant fields of SignalingClient in ledger.js. -/
def maxReconnectAttempts : Nat := 10

/-- baseDelay = 1e3 milliseconds. -/
def baseDelay : Nat := 1000

/-- maxDelay = 3e4 milliseconds. -/
def maxDelay : Nat := 30000

/-- The mutable fields of SignalingClient that handleDisconnect touches. -/
structure SigState where
  reconnectAttempts : Nat
  shouldReconnect : Bool
deriving DecidableEq

/-- Observable outcome of one handleDisconnect call. -/
inductive SigAction where
  /-- emit reconnecting with the attempt number and schedule connect()
  after the given delay in milliseconds -/
  | scheduleReconnect (attempt : Nat) (delayMs : Nat)
  /-- emit disconnected -/
  | emitDisconnected
deriving DecidableEq

/-- Shallow embedding of SignalingClient.handleDisconnect. -/
def handleDisconnect (s : SigState) : SigState × SigAction :=
  if s.shouldReconnect = false then (s, .emitDisconnected)
  else if s.reconnectAttempts < maxReconnectAttempts then
    let a := s.reconnectAttempts + 1
    ({ s with reconnectAttempts := a },
      .scheduleReconnect a (min (baseDelay * 2 ^ (a - 1)) maxDelay))
  else (s, .emitDisconnected)

/-- The actions produced by n successive socket closes, starting from s
(reconnect timers assumed to fire and fail before the next close). -/
def closeActions : Nat → SigState → List SigAction
  | 0, _ => []
  | n + 1, s =>
      let (s', act) := handleDisconnect s
      act :: closeActions n s'

/-- C8: while should-reconnect holds, the n-th reconnect attempt
(1 ≤ n ≤ 10) is scheduled after min(1000 * 2 ^ (n - 1), 30000) ms and
emits reconnecting with attempt number n; past 10 attempts no reconnect is
scheduled and disconnected is emitted; from a fresh state, 11 closes yield
exactly the ten capped delays followed by disconnected. -/
theorem signaling_reconnect_schedule (s : SigState) (n : Nat)
    (hsr : s.shouldReconnect = true) (h1 : 1 ≤ n) (h10 : n ≤ 10)
    (hat : s.reconnectAttempts = n - 1) :
    handleDisconnect s =
      ({ s with reconnectAttempts := n },
        .scheduleReconnect n (min (1000 * 2 ^ (n - 1)) 30000)) ∧
    (∀ s' : SigState, s'.shouldReconnect = true →
      10 ≤ s'.reconnectAttempts →
      handleDisconnect s' = (s', .emitDisconnected)) ∧
    closeActions 11 ⟨0, true⟩ =
      [.scheduleReconnect 1 1000, .scheduleReconnect 2 2000,
       .scheduleReconnect 3 4000, .scheduleReconnect 4 8000,
       .scheduleReconnect 5 16000, .scheduleReconnect 6 30000,
       .scheduleReconnect 7 30000, .scheduleReconnect 8 30000,
       .scheduleReconnect 9 30000, .scheduleReconnect 10 30000,
       .emitDisconnected] := by
  refine ⟨?_, ?_, by decide⟩
  · have hlt : s.reconnectAttempts < 10 := by omega
    have hn : s.reconnectAttempts + 1 = n := by omega
    simp [handleDisconnect, maxReconnectAttempts, baseDelay, maxDelay,
      hsr, hlt, hn]
  · intro s' hsr' hge
    have : ¬ s'.reconnectAttempts < maxReconnectAttempts := by
      simp only [maxReconnectAttempts]; omega
    simp [handleDisconnect, hsr', this]

theorem signaling_reconnect_schedule_witness :
    (⟨2, true⟩ : SigState).shouldReconnect = true ∧
    handleDisconnect ⟨2, true⟩ =
      (⟨3, true⟩, .scheduleReconnect 3 (min (1000 * 2 ^ (3 - 1)) 30000)) :=
  ⟨by decide, by
    have h := signaling_reconnect_schedule ⟨2, true⟩ 3 (by decide)
      (by decide) (by decide) (by decide)
    exact h.1⟩

/-! ## CRDT merge and catalog convergence

getChanges / applyChanges in ledger.js forward change records between
replicas; the merge itself happens inside the cr-sqlite extension, which is
not part of this repository.  Modelled from the spec: the sites table is a
register map whose concurrent column updates are resolved last-writer-wins
per column, deterministically, using the column version and the causal
clock carried by each change record.  Determinism on version ties — two
concurrent writes to the same cell carrying the same causal clock and
column version but different values, e.g. two peers each bumping a column
from version k to k+1 — requires a total tie-break; cr-sqlite breaks such
ties by comparing the values themselves (the larger value wins), and the
model does the same: a change overwrites a cell exactly when its
(causal clock, column version, value) key is strictly larger in the
lexicographic order.  String values are compared by their character
codes. -/

/-- A cell of the replicated register map: one column of one row. -/
structure CCell where
  tbl : String
  pk : String
  cid : String
deriving DecidableEq

/-- A change record as exchanged between replicas, restricted to the
fields the merge consults (cell identity, version fields, value). -/
structure CChange where
  cell : CCell
  colVersion : Nat
  cl : Nat
  val : Option String
deriving DecidableEq

/-- The version of a change: causal clock first, then column version. -/
def ver (c : CChange) : Nat × Nat := (c.cl, c.colVersion)

/-- Strict last-writer-wins comparison on versions (lexicographic). -/
def newerVer (a b : Nat × Nat) : Bool :=
  b.1 < a.1 || (b.1 = a.1 && b.2 < a.2)

/-- Strict lexicographic comparison of character-code lists. -/
def lexLtB : List Nat → List Nat → Bool
  | [], [] => false
  | [], _ :: _ => true
  | _ :: _, [] => false
  | a :: as, b :: bs =>
      if a < b then true else if b < a then false else lexLtB as bs

/-- The character codes of a string, the basis of the value order. -/
def strCodes (s : String) : List Nat := s.toList.map Char.toNat

/-- The deterministic value tie-break: does value a beat value b?  A null
value loses to any string; strings compare by character codes. -/
def valGtB : Option String → Option String → Bool
  | some x, some y => lexLtB (strCodes y) (strCodes x)
  | some _, none => true
  | none, _ => false

/-- Does a (version, value) key beat the incumbent key?  Strictly newer
version wins; on a version tie the strictly larger value wins. -/
def keyGt (a b : (Nat × Nat) × Option String) : Bool :=
  newerVer a.1 b.1 || (a.1 = b.1 && valGtB a.2 b.2)

/-- Replica state: each cell holds the winning version and value. -/
def CrdtState : Type := CCell → Option ((Nat × Nat) × Option String)

/-- The empty replica: no cell has been written. -/
def emptyCrdt : CrdtState := fun _ => none

/-- Fold one change record into a replica state. -/
def mergeChange (s : CrdtState) (c : CChange) : CrdtState :=
  fun cell =>
    if cell = c.cell then
      match s c.cell with
      | none => some (ver c, c.val)
      | some (v, x) =>
          if keyGt (ver c, c.val) (v, x) then some (ver c, c.val)
          else some (v, x)
    else s cell

/-- Fold a whole list of change records into a replica state, in order. -/
def applyAllChanges (s : CrdtState) (l : List CChange) : CrdtState :=
  l.foldl mergeChange s

theorem applyAllChanges_append_single (s : CrdtState) (l : List CChange)
    (c : CChange) :
    applyAllChanges s (l ++ [c]) = mergeChange (applyAllChanges s l) c := by
  simp [applyAllChanges, List.foldl_append]

theorem lexLtB_irrefl : ∀ l : List Nat, lexLtB l l = false
  | [] => rfl
  | a :: as => by simp [lexLtB, lexLtB_irrefl as]

theorem lexLtB_asymm_eq : ∀ l m : List Nat, lexLtB l m = false →
    lexLtB m l = false → l = m
  | [], [], _, _ => rfl
  | [], _ :: _, h1, _ => by simp [lexLtB] at h1
  | _ :: _, [], _, h2 => by simp [lexLtB] at h2
  | a :: as, b :: bs, h1, h2 => by
      by_cases hab : a < b
      · simp [lexLtB, hab] at h1
      · by_cases hba : b < a
        · simp [lexLtB, hba] at h2
        · have hae : a = b := by omega
          subst hae
          simp only [lexLtB, if_neg hab, if_neg hba] at h1 h2
          rw [lexLtB_asymm_eq as bs h1 h2]

theorem lexLtB_trans : ∀ l m n : List Nat, lexLtB l m = true →
    lexLtB m n = true → lexLtB l n = true
  | [], [], _, h1, _ => by simp [lexLtB] at h1
  | [], _ :: _, [], _, h2 => by simp [lexLtB] at h2
  | [], _ :: _, _ :: _, _, _ => rfl
  | _ :: _, [], _, h1, _ => by simp [lexLtB] at h1
  | _ :: _, _ :: _, [], _, h2 => by simp [lexLtB] at h2
  | a :: as, b :: bs, c :: cs, h1, h2 => by
      by_cases hab : a < b
      · by_cases hbc : b < c
        · have hac : a < c := by omega
          simp [lexLtB, hac]
        · by_cases hcb : c < b
          · exfalso
            simp [lexLtB, hcb] at h2
            omega
          · have hac : a < c := by omega
            simp [lexLtB, hac]
      · by_cases hba : b < a
        · simp [lexLtB, hba, hab] at h1
        · have hae : a = b := by omega
          subst hae
          simp only [lexLtB, if_neg hab, if_neg hba] at h1
          by_cases hac : a < c
          · simp [lexLtB, hac]
          · by_cases hca : c < a
            · simp [lexLtB, hca, hac] at h2
            · simp only [lexLtB, if_neg hac, if_neg hca] at h2 ⊢
              exact lexLtB_trans as bs cs h1 h2

theorem strCodes_inj (x y : String) (h : strCodes x = strCodes y) :
    x = y :=
  String.ext
    (List.map_injective_iff.2 (fun _ _ hab => Char.ext (UInt32.ext hab)) h)

theorem valGtB_irrefl : ∀ a : Option String, valGtB a a = false
  | none => rfl
  | some x => lexLtB_irrefl (strCodes x)

theorem valGtB_asymm_eq : ∀ a b : Option String, valGtB a b = false →
    valGtB b a = false → a = b
  | none, none, _, _ => rfl
  | none, some _, _, h2 => by simp [valGtB] at h2
  | some _, none, h1, _ => by simp [valGtB] at h1
  | some x, some y, h1, h2 => by
      simp only [valGtB] at h1 h2
      rw [strCodes_inj x y (lexLtB_asymm_eq _ _ h2 h1)]

theorem valGtB_trans : ∀ a b c : Option String, valGtB a b = true →
    valGtB b c = true → valGtB a c = true
  | none, _, _, h1, _ => by simp [valGtB] at h1
  | some _, none, _, _, h2 => by simp [valGtB] at h2
  | some _, some _, none, _, _ => rfl
  | some x, some y, some z, h1, h2 => by
      simp only [valGtB] at h1 h2 ⊢
      exact lexLtB_trans _ _ _ h2 h1

theorem keyGt_irrefl (a : (Nat × Nat) × Option String) :
    keyGt a a = false := by
  rcases a with ⟨⟨a1, a2⟩, ax⟩
  simp [keyGt, newerVer, valGtB_irrefl]

theorem newerVer_asymm_eq (a b : Nat × Nat) (h1 : newerVer a b = false)
    (h2 : newerVer b a = false) : a = b := by
  rcases a with ⟨a1, a2⟩
  rcases b with ⟨b1, b2⟩
  simp only [newerVer, Bool.or_eq_false_iff, Bool.and_eq_false_iff,
    decide_eq_false_iff_not] at h1 h2
  simp only [Prod.mk.injEq]
  omega

theorem keyGt_asymm_eq (a b : (Nat × Nat) × Option String)
    (h1 : keyGt a b = false) (h2 : keyGt b a = false) : a = b := by
  rcases a with ⟨av, ax⟩
  rcases b with ⟨bv, bx⟩
  simp only [keyGt, Bool.or_eq_false_iff, Bool.and_eq_false_iff,
    decide_eq_false_iff_not] at h1 h2
  have hv : av = bv := newerVer_asymm_eq av bv h1.1 h2.1
  subst hv
  have hx : ax = bx := by
    rcases h1.2 with h | h
    · exact absurd rfl h
    · rcases h2.2 with h' | h'
      · exact absurd rfl h'
      · exact valGtB_asymm_eq ax bx h h'
  rw [hx]

theorem keyGt_trans (a b c : (Nat × Nat) × Option String)
    (h1 : keyGt a b = true) (h2 : keyGt b c = true) :
    keyGt a c = true := by
  rcases a with ⟨⟨a1, a2⟩, ax⟩
  rcases b with ⟨⟨b1, b2⟩, bx⟩
  rcases c with ⟨⟨c1, c2⟩, cx⟩
  simp only [keyGt, newerVer, Bool.or_eq_true, Bool.and_eq_true,
    decide_eq_true_eq, Prod.mk.injEq] at h1 h2 ⊢
  rcases h1 with h1 | ⟨⟨hae, hbe⟩, hx1⟩
  · rcases h2 with h2 | ⟨⟨hce, hde⟩, hx2⟩
    · exact Or.inl (by omega)
    · exact Or.inl (by omega)
  · rcases h2 with h2 | ⟨⟨hce, hde⟩, hx2⟩
    · exact Or.inl (by omega)
    · exact Or.inr ⟨⟨by omega, by omega⟩, valGtB_trans ax bx cx hx1 hx2⟩

theorem keyGt_older (a b v : (Nat × Nat) × Option String)
    (h1 : keyGt a v = true) (h2 : keyGt b v = false) :
    keyGt b a = false := by
  cases hba : keyGt b a with
  | false => rfl
  | true => exact absurd (keyGt_trans b a v hba h1) (by simp [h2])

/-- Characterization of a replica state after folding a change list into
the empty state: a cell is empty iff no change touched it, and otherwise
it holds the version and value of a change with the maximal
(version, value) key for that cell. -/
theorem applyAllChanges_spec (l : List CChange) (cell : CCell) :
    (applyAllChanges emptyCrdt l cell = none → ∀ c ∈ l, c.cell ≠ cell) ∧
    (∀ v x, applyAllChanges emptyCrdt l cell = some (v, x) →
      (∃ c ∈ l, c.cell = cell ∧ ver c = v ∧ c.val = x) ∧
      (∀ c ∈ l, c.cell = cell → keyGt (ver c, c.val) (v, x) = false)) := by
  induction l using List.reverseRecOn with
  | nil =>
      constructor
      · intro _ c hc
        exact absurd hc (List.not_mem_nil c)
      · intro v x hvx
        simp [applyAllChanges, emptyCrdt] at hvx
  | append_singleton l c ih =>
      rw [applyAllChanges_append_single]
      by_cases hcell : cell = c.cell
      case neg =>
        have hmerge : mergeChange (applyAllChanges emptyCrdt l) c cell
            = applyAllChanges emptyCrdt l cell := by
          simp [mergeChange, hcell]
        rw [hmerge]
        constructor
        · intro hnone c' hc'
          rcases List.mem_append.1 hc' with hmem | hmem
          · exact (ih.1 hnone) c' hmem
          · rcases List.mem_singleton.1 hmem with rfl
            exact fun he => hcell he.symm
        · intro v x hvx
          obtain ⟨⟨c', hc', hcl', hv', hx'⟩, hmax⟩ := ih.2 v x hvx
          refine ⟨⟨c', List.mem_append_left _ hc', hcl', hv', hx'⟩, ?_⟩
          intro c'' hc'' hcl''
          rcases List.mem_append.1 hc'' with hmem | hmem
          · exact hmax c'' hmem hcl''
          · rcases List.mem_singleton.1 hmem with rfl
            exact absurd hcl''.symm hcell
      case pos =>
        subst hcell
        rcases hprev : applyAllChanges emptyCrdt l c.cell with _ | ⟨v0, x0⟩
        · -- the cell was empty before c: c is installed
          have hmerge : mergeChange (applyAllChanges emptyCrdt l) c c.cell
              = some (ver c, c.val) := by
            simp [mergeChange, hprev]
          rw [hmerge]
          constructor
          · intro hsome
            exact absurd hsome (by simp)
          · intro v x hvx
            simp only [Option.some.injEq, Prod.mk.injEq] at hvx
            obtain ⟨hv, hx⟩ := hvx
            refine ⟨⟨c, List.mem_append_right _ (List.mem_singleton.2 rfl),
              rfl, hv, hx⟩, ?_⟩
            intro c'' hc'' hcl''
            rcases List.mem_append.1 hc'' with hmem | hmem
            · exact absurd hcl'' (ih.1 hprev c'' hmem)
            · rcases List.mem_singleton.1 hmem with rfl
              rw [← hv, ← hx]
              exact keyGt_irrefl _
        · by_cases hn : keyGt (ver c, c.val) (v0, x0) = true
          · -- c beats the incumbent key and overwrites the cell
            have hmerge : mergeChange (applyAllChanges emptyCrdt l) c c.cell
                = some (ver c, c.val) := by
              simp [mergeChange, hprev, hn]
            rw [hmerge]
            constructor
            · intro hsome
              exact absurd hsome (by simp)
            · intro v x hvx
              simp only [Option.some.injEq, Prod.mk.injEq] at hvx
              obtain ⟨hv, hx⟩ := hvx
              refine ⟨⟨c, List.mem_append_right _ (List.mem_singleton.2 rfl),
                rfl, hv, hx⟩, ?_⟩
              intro c'' hc'' hcl''
              rcases List.mem_append.1 hc'' with hmem | hmem
              · have hold := (ih.2 v0 x0 hprev).2 c'' hmem hcl''
                rw [← hv, ← hx]
                exact keyGt_older (ver c, c.val) (ver c'', c''.val)
                  (v0, x0) hn hold
              · rcases List.mem_singleton.1 hmem with rfl
                rw [← hv, ← hx]
                exact keyGt_irrefl _
          · -- c loses the comparison: the existing key stays
            have hnf : keyGt (ver c, c.val) (v0, x0) = false :=
              Bool.eq_false_iff.2 hn
            have hmerge : mergeChange (applyAllChanges emptyCrdt l) c c.cell
                = some (v0, x0) := by
              simp [mergeChange, hprev, hnf]
            rw [hmerge]
            constructor
            · intro hsome
              exact absurd hsome (by simp)
            · intro v x hvx
              simp only [Option.some.injEq, Prod.mk.injEq] at hvx
              obtain ⟨hv, hx⟩ := hvx
              subst hv
              subst hx
              obtain ⟨⟨c', hc', hcl', hv', hx'⟩, hmax⟩ := ih.2 v0 x0 hprev
              refine ⟨⟨c', List.mem_append_left _ hc', hcl', hv', hx'⟩, ?_⟩
              intro c'' hc'' hcl''
              rcases List.mem_append.1 hc'' with hmem | hmem
              · exact hmax c'' hmem hcl''
              · rcases List.mem_singleton.1 hmem with rfl
                exact hnf

/-- C2: two replicas that have each absorbed the same set of change
records (their own local writes plus everything exchanged through
changes-since / apply-changes, in any order, with any duplication across
rounds) hold identical register maps; the deterministic value tie-break
settles concurrent same-cell writes that share a version. -/
theorem catalog_convergence (l1 l2 : List CChange)
    (h12 : ∀ c ∈ l1, c ∈ l2) (h21 : ∀ c ∈ l2, c ∈ l1) :
    ∀ cell, applyAllChanges emptyCrdt l1 cell
      = applyAllChanges emptyCrdt l2 cell := by
  intro cell
  rcases e1 : applyAllChanges emptyCrdt l1 cell with _ | ⟨v1, x1⟩ <;>
    rcases e2 : applyAllChanges emptyCrdt l2 cell with _ | ⟨v2, x2⟩
  · rfl
  · exfalso
    rcases ((applyAllChanges_spec l2 cell).2 v2 x2 e2).1
      with ⟨c, hc, hcl, _, _⟩
    exact ((applyAllChanges_spec l1 cell).1 e1) c (h21 c hc) hcl
  · exfalso
    rcases ((applyAllChanges_spec l1 cell).2 v1 x1 e1).1
      with ⟨c, hc, hcl, _, _⟩
    exact ((applyAllChanges_spec l2 cell).1 e2) c (h12 c hc) hcl
  · rcases ((applyAllChanges_spec l1 cell).2 v1 x1 e1).1
      with ⟨c1, hc1, hcl1, hv1, hx1⟩
    rcases ((applyAllChanges_spec l2 cell).2 v2 x2 e2).1
      with ⟨c2, hc2, hcl2, hv2, hx2⟩
    have hmax1 := ((applyAllChanges_spec l1 cell).2 v1 x1 e1).2 c2
      (h21 c2 hc2) hcl2
    have hmax2 := ((applyAllChanges_spec l2 cell).2 v2 x2 e2).2 c1
      (h12 c1 hc1) hcl1
    rw [hv2, hx2] at hmax1
    rw [hv1, hx1] at hmax2
    have hk := keyGt_asymm_eq (v1, x1) (v2, x2) hmax2 hmax1
    simp only [Prod.mk.injEq] at hk
    rw [hk.1, hk.2]

/-- The canonical conflict: two concurrent writes to the same cell with
the same causal clock and column version but different values, applied in
opposite orders (with one duplicated, as re-delivery across sync rounds
produces).  The tie-break makes both replicas converge on Beta. -/
theorem catalog_convergence_witness :
    (∀ c ∈ [CChange.mk ⟨"sites", "r1", "name"⟩ 1 1 (some "Alpha"),
            CChange.mk ⟨"sites", "r1", "name"⟩ 1 1 (some "Beta")],
       c ∈ [CChange.mk ⟨"sites", "r1", "name"⟩ 1 1 (some "Beta"),
            CChange.mk ⟨"sites", "r1", "name"⟩ 1 1 (some "Alpha"),
            CChange.mk ⟨"sites", "r1", "name"⟩ 1 1 (some "Alpha")]) ∧
    (∀ c ∈ [CChange.mk ⟨"sites", "r1", "name"⟩ 1 1 (some "Beta"),
            CChange.mk ⟨"sites", "r1", "name"⟩ 1 1 (some "Alpha"),
            CChange.mk ⟨"sites", "r1", "name"⟩ 1 1 (some "Alpha")],
       c ∈ [CChange.mk ⟨"sites", "r1", "name"⟩ 1 1 (some "Alpha"),
            CChange.mk ⟨"sites", "r1", "name"⟩ 1 1 (some "Beta")]) ∧
    applyAllChanges emptyCrdt
      [CChange.mk ⟨"sites", "r1", "name"⟩ 1 1 (some "Alpha"),
       CChange.mk ⟨"sites", "r1", "name"⟩ 1 1 (some "Beta")]
      ⟨"sites", "r1", "name"⟩
    = applyAllChanges emptyCrdt
      [CChange.mk ⟨"sites", "r1", "name"⟩ 1 1 (some "Beta"),
       CChange.mk ⟨"sites", "r1", "name"⟩ 1 1 (some "Alpha"),
       CChange.mk ⟨"sites", "r1", "name"⟩ 1 1 (some "Alpha")]
      ⟨"sites", "r1", "name"⟩ :=
  ⟨by decide, by decide,
    catalog_convergence _ _ (by decide) (by decide) ⟨"sites", "r1", "name"⟩⟩

/-! ## Catalog (catalog.js): sites rows, addSite, adoptSite

The sites table is modelled as a list of rows in insertion order; getSite
is SELECT ... WHERE id = ? taking the first row; addSite INSERTs a fresh
row stamped with the local node id and timestamps; adoptSite copies the
display fields of a foreign row into a fresh addSite call. -/

/-- One row of the sites table (catalog.js SCHEMA). -/
structure SiteRow where
  id : String
  name : String
  url : String
  description : String
  thumbnail : String
  owner_id : String
  content_hash : String
  file_count : Nat
  file_size : Nat
  added_at : String
  updated_at : String
deriving DecidableEq

/-- The argument object passed to addSite. -/
structure SiteInput where
  name : String
  url : String
  description : String
  thumbnail : String
  contentHash : String
  fileCount : Nat
  fileSize : Nat
deriving DecidableEq

/-- JavaScript `x || fallback` on strings: the empty string is falsy. -/
def jsOrStr (x fallback : String) : String :=
  if x = "" then fallback else x

/-- JavaScript `x || fallback` on numbers: zero is falsy. -/
def jsOrNat (x fallback : Nat) : Nat :=
  if x = 0 then fallback else x

theorem jsOrStr_empty (x : String) : jsOrStr x "" = x := by
  unfold jsOrStr
  split <;> simp_all

theorem jsOrNat_zero (x : Nat) : jsOrNat x 0 = x := by
  unfold jsOrNat
  split <;> simp_all

/-- Typed catalog failures. -/
inductive CatalogFailure where
  /-- adoptSite throws Error with message Site not found -/
  | siteNotFound
  /-- addSite and adoptSite throw when the ledger is not initialized -/
  | notInitialized
deriving DecidableEq

/-- getSite: SELECT * FROM sites WHERE id = ?, first row or null. -/
def getSiteRow (db : List SiteRow) (id : String) : Option SiteRow :=
  db.find? (fun s => s.id = id)

/-- addSite: builds the new row (generateId and timestamp supplied as the
nondeterministic inputs newId and now) and INSERTs it. -/
def addSiteRow (me now newId : String) (input : SiteInput)
    (db : List SiteRow) : SiteRow × List SiteRow :=
  let s : SiteRow := {
    id := newId
    name := jsOrStr input.name ""
    url := jsOrStr input.url ""
    description := jsOrStr input.description ""
    thumbnail := jsOrStr input.thumbnail ""
    owner_id := me
    content_hash := jsOrStr input.contentHash ""
    file_count := jsOrNat input.fileCount 0
    file_size := jsOrNat input.fileSize 0
    added_at := now
    updated_at := now }
  (s, db ++ [s])

/-- adoptSite: look up the original row; if missing fail with NotFound,
otherwise add a copy of its display fields owned by this node and return
the new row together with the original id. -/
def adoptSiteRow (me now newId : String) (db : List SiteRow)
    (originalId : String) :
    Except CatalogFailure (SiteRow × String × List SiteRow) :=
  match getSiteRow db originalId with
  | none => .error .siteNotFound
  | some orig =>
      let (ns, db') := addSiteRow me now newId
        { name := orig.name
          url := orig.url
          description := orig.description
          thumbnail := orig.thumbnail
          contentHash := orig.content_hash
          fileCount := orig.file_count
          fileSize := orig.file_size } db
      .ok (ns, originalId, db')

/-- C7: adoption identity.  On a missing id adoptSite fails with NotFound;
on an existing row it returns (newRow, originalId) where, provided the
generated id is fresh, newRow.id differs from originalId, newRow.owner_id
is the local node id, and name, url, description, thumbnail, content_hash,
file_count and file_size are copied verbatim from the original row. -/
theorem adoption_identity (me now newId originalId : String)
    (db : List SiteRow) :
    (getSiteRow db originalId = none →
      adoptSiteRow me now newId db originalId = .error .siteNotFound) ∧
    (∀ orig, getSiteRow db originalId = some orig → newId ≠ originalId →
      ∃ ns db', adoptSiteRow me now newId db originalId
          = .ok (ns, originalId, db') ∧
        ns.id = newId ∧ ns.id ≠ originalId ∧ ns.owner_id = me ∧
        ns.name = orig.name ∧ ns.url = orig.url ∧
        ns.description = orig.description ∧
        ns.thumbnail = orig.thumbnail ∧
        ns.content_hash = orig.content_hash ∧
        ns.file_count = orig.file_count ∧
        ns.file_size = orig.file_size ∧
        db' = db ++ [ns]) := by
  constructor
  · intro hnone
    simp [adoptSiteRow, hnone]
  · intro orig hfound hfresh
    simp only [adoptSiteRow, hfound, addSiteRow]
    refine ⟨_, _, rfl, ?_⟩
    simp [jsOrStr_empty, jsOrNat_zero, hfresh]

/-- A concrete foreign catalog row used to exercise adoption. -/
def sampleOrig : SiteRow :=
  { id := "orig-1", name := "Alpha", url := "https://a",
    description := "d", thumbnail := "t", owner_id := "nodeA",
    content_hash := "h1", file_count := 3, file_size := 130000,
    added_at := "2024", updated_at := "2024" }

theorem adoption_identity_witness :
    getSiteRow [sampleOrig] "orig-1" = some sampleOrig ∧
    ("uuid-2" : String) ≠ "orig-1" ∧
    (∃ ns db', adoptSiteRow "nodeB" "2025" "uuid-2" [sampleOrig] "orig-1"
        = .ok (ns, "orig-1", db') ∧
      ns.id = "uuid-2" ∧ ns.id ≠ "orig-1" ∧ ns.owner_id = "nodeB" ∧
      ns.name = sampleOrig.name ∧ ns.url = sampleOrig.url ∧
      ns.description = sampleOrig.description ∧
      ns.thumbnail = sampleOrig.thumbnail ∧
      ns.content_hash = sampleOrig.content_hash ∧
      ns.file_count = sampleOrig.file_count ∧
      ns.file_size = sampleOrig.file_size ∧
      db' = [sampleOrig] ++ [ns]) :=
  ⟨by decide, by decide,
    (adoption_identity "nodeB" "2025" "uuid-2" "orig-1" [sampleOrig]).2
      sampleOrig (by decide) (by decide)⟩

/-! ## File-transfer receiver state machine (transfer.js)

transfer.js keeps two module-level Maps: incomingTransfers, keyed by the
string peer:siteId:path, and pendingRequests, keyed by list:siteId for
file-list requests and file:siteId:path for per-file requests.  The maps
are modelled as association lists with unique keys (set replaces in
place); resolution handles are numbers standing for the stored promise
callbacks. -/

/-- Association-list lookup (Map.get). -/
def mapGet {α : Type} (k : String) : List (String × α) → Option α
  | [] => none
  | (k', v) :: rest => if k' = k then some v else mapGet k rest

/-- Association-list insert-or-replace (Map.set). -/
def mapSet {α : Type} (k : String) (v : α) :
    List (String × α) → List (String × α)
  | [] => [(k, v)]
  | (k', v') :: rest =>
      if k' = k then (k, v) :: rest else (k', v') :: mapSet k v rest

/-- Association-list removal (Map.delete). -/
def mapDel {α : Type} (k : String) (m : List (String × α)) :
    List (String × α) :=
  m.filter (fun p => p.1 ≠ k)

theorem mapGet_mapDel {α : Type} (k : String) (m : List (String × α)) :
    mapGet k (mapDel k m) = none := by
  induction m with
  | nil => rfl
  | cons p rest ih =>
      by_cases h : p.1 = k
      · simpa [mapDel, h] using ih
      · simpa [mapDel, mapGet, h] using ih

theorem mapGet_mapSet {α : Type} (k : String) (v : α)
    (m : List (String × α)) : mapGet k (mapSet k v m) = some v := by
  induction m with
  | nil => simp [mapSet, mapGet]
  | cons p rest ih =>
      by_cases h : p.1 = k
      · simp [mapSet, mapGet, h]
      · rcases p with ⟨k', v'⟩
        simp only at h
        simp [mapSet, mapGet, h, ih]

/-- One record of incomingTransfers (set on file-start). -/
structure IncomingRec where
  siteId : String
  path : String
  contentType : String
  totalSize : Nat
  receivedSize : Nat
  chunks : List (List Nat)
deriving DecidableEq

/-- The module-level mutable state of transfer.js. -/
structure TransferState where
  incoming : List (String × IncomingRec)
  pending : List (String × Nat)
deriving DecidableEq

/-- The empty transfer state (fresh module load). -/
def emptyTransfer : TransferState := ⟨[], []⟩

/-- Key of incomingTransfers: peer : siteId : path. -/
def transferKey (peer siteId path : String) : String :=
  peer ++ ":" ++ siteId ++ ":" ++ path

/-- Key of a pending per-file request: file : siteId : path.  The peer id
is not part of the key. -/
def fileReqKey (siteId path : String) : String :=
  "file:" ++ siteId ++ ":" ++ path

/-- Key of a pending file-list request: list : siteId. -/
def listReqKey (siteId : String) : String :=
  "list:" ++ siteId

/-- Inbound file-transfer messages handled on the requester side. -/
inductive TMsg where
  | fileList (siteId : String) (files : List (String × Nat × String))
  | fileStart (siteId path contentType : String) (size : Nat)
  | fileChunk (siteId path : String) (data : List Nat)
  | fileEnd (siteId path : String)
deriving DecidableEq

/-- Observable side effects of the transfer handlers. -/
inductive TEffect where
  /-- storeFile(siteId, path, blob, contentType) on the content store -/
  | storeFile (siteId path contentType : String) (bytes : List Nat)
  /-- resolve the promise behind a pending-request handle -/
  | resolve (handle : Nat)
  /-- reject the promise behind a handle with a timeout Error -/
  | rejectTimeout (handle : Nat)
  /-- invoke the progress subscribers -/
  | progress (siteId path : String) (received total : Nat)
deriving DecidableEq

/-- Shallow embedding of handleTransferMessage for one inbound message
from fromPeer, restricted to the requester-side cases (the sender-side
cases file-list-request and file-request only read the persistence layer
and send; they leave this state untouched). -/
def recvTransferMessage (s : TransferState) (fromPeer : String)
    (msg : TMsg) : TransferState × List TEffect :=
  match msg with
  | .fileList siteId _files =>
      match mapGet (listReqKey siteId) s.pending with
      | some h =>
          ({ s with pending := mapDel (listReqKey siteId) s.pending },
            [.resolve h])
      | none => (s, [])
  | .fileStart siteId path contentType size =>
      let fresh : IncomingRec :=
        { siteId := siteId, path := path, contentType := contentType,
          totalSize := size, receivedSize := 0, chunks := [] }
      let inc := mapSet (transferKey fromPeer siteId path) fresh s.incoming
      ({ s with incoming := inc }, [])
  | .fileChunk siteId path data =>
      match mapGet (transferKey fromPeer siteId path) s.incoming with
      | some t =>
          let bytes := b64decode data
          let t' : IncomingRec :=
            { t with
              chunks := t.chunks ++ [bytes],
              receivedSize := t.receivedSize + bytes.length }
          let inc := mapSet (transferKey fromPeer siteId path) t' s.incoming
          ({ s with incoming := inc },
            [.progress t.siteId t.path t'.receivedSize t.totalSize])
      | none => (s, [])
  | .fileEnd siteId path =>
      match mapGet (transferKey fromPeer siteId path) s.incoming with
      | some t =>
          let s1 : TransferState :=
            { s with incoming :=
                mapDel (transferKey fromPeer siteId path) s.incoming }
          match mapGet (fileReqKey siteId path) s1.pending with
          | some h =>
              let pend := mapDel (fileReqKey siteId path) s1.pending
              ({ s1 with pending := pend },
                [.storeFile siteId path t.contentType t.chunks.flatten,
                 .resolve h])
          | none =>
              (s1, [.storeFile siteId path t.contentType t.chunks.flatten])
      | none => (s, [])

/-- 30000 ms deadline installed by requestFileList. -/
def LIST_TIMEOUT_MS : Nat := 30000

/-- 60000 ms deadline installed per file by importSiteFromPeer. -/
def FILE_TIMEOUT_MS : Nat := 60000

/-- requestFileList(peerId, siteId): installs the pending file-list entry
under list:siteId and schedules a timeout after LIST_TIMEOUT_MS; the peer
argument reaches only the sent message, never the key. -/
def requestFileList (s : TransferState) (_peerId siteId : String)
    (h : Nat) : TransferState × String × Nat :=
  ({ s with pending := mapSet (listReqKey siteId) h s.pending },
    listReqKey siteId, LIST_TIMEOUT_MS)

/-- The per-file step of importSiteFromPeer: installs the pending entry
under file:siteId:path and schedules a timeout after FILE_TIMEOUT_MS; the
peer argument reaches only the sent message, never the key. -/
def installFileRequest (s : TransferState) (_peerId siteId path : String)
    (h : Nat) : TransferState × String × Nat :=
  ({ s with pending := mapSet (fileReqKey siteId path) h s.pending },
    fileReqKey siteId path, FILE_TIMEOUT_MS)

/-- The body of either setTimeout callback: if the key is still pending,
delete it and reject with the timeout Error; otherwise do nothing. -/
def timeoutFire (s : TransferState) (key : String) :
    TransferState × List TEffect :=
  match mapGet key s.pending with
  | some h =>
      ({ s with pending := mapDel key s.pending }, [.rejectTimeout h])
  | none => (s, [])

/-- The transfer layer's reaction to a peer-leave event.  transfer.js
registers only the onCustomMessage handler; no code in the repository
subscribes the transfer state to peer-leave (catalog.js only notifies UI
callbacks), so the event leaves incomingTransfers and pendingRequests
untouched and rejects nothing. -/
def transferPeerLeave (s : TransferState) (_peer : String) :
    TransferState × List TEffect :=
  (s, [])

/-- A transfer state holding one incoming transfer from peerA and the
matching pending per-file request, as importSiteFromPeer produces. -/
def preLeaveState : TransferState :=
  (installFileRequest
    (recvTransferMessage emptyTransfer "peerA"
      (.fileStart "site1" "a.txt" "text/plain" 3)).1
    "peerA" "site1" "a.txt" 7).1

/-- C3 counterexample: after peer-leave of peerA, the incoming-transfer
record from peerA and the pending per-file request both survive and no
rejection effect (PeerGone or otherwise) is produced, contradicting the
claim that peer-leave discards and rejects them. -/
theorem peer_leave_no_cleanup_cex :
    transferPeerLeave preLeaveState "peerA" = (preLeaveState, []) ∧
    mapGet (transferKey "peerA" "site1" "a.txt")
      (transferPeerLeave preLeaveState "peerA").1.incoming ≠ none ∧
    mapGet (fileReqKey "site1" "a.txt")
      (transferPeerLeave preLeaveState "peerA").1.pending = some 7 := by
  decide

/-- C3 amended: a peer-leave event leaves the transfer layer's state
untouched: every incoming-transfer record and every pending request
survives unchanged, and no rejection is emitted; pending requests for a
departed peer fail only later through their timeouts. -/
theorem peer_leave_no_cleanup (s : TransferState) (peer k : String) :
    mapGet k (transferPeerLeave s peer).1.incoming = mapGet k s.incoming ∧
    mapGet k (transferPeerLeave s peer).1.pending = mapGet k s.pending ∧
    (transferPeerLeave s peer).2 = [] :=
  ⟨rfl, rfl, rfl⟩

/-- A transfer state after a request for (site1, a.txt) was sent to peerA
with handle 1 and then to peerB with handle 2. -/
def dualReqState : TransferState :=
  (installFileRequest
    (installFileRequest emptyTransfer "peerA" "site1" "a.txt" 1).1
    "peerB" "site1" "a.txt" 2).1

/-- dualReqState after peerA additionally announced the file with
file-start. -/
def dualReqStarted : TransferState :=
  (recvTransferMessage dualReqState "peerA"
    (.fileStart "site1" "a.txt" "text/plain" 0)).1

/-- C5 counterexample: the pending-file record is not keyed by
(peer, siteId, path): requesting the same (siteId, path) from peerA
(handle 1) and then peerB (handle 2) leaves a single entry keyed
file:site1:a.txt holding handle 2, the request to peerA having been
overwritten; a completion arriving from peerA then resolves handle 2,
the request directed at peerB. -/
theorem import_pending_key_cex :
    dualReqState.pending = [(fileReqKey "site1" "a.txt", 2)] ∧
    (recvTransferMessage dualReqStarted "peerA"
      (.fileEnd "site1" "a.txt")).2
      = [.storeFile "site1" "a.txt" "text/plain" [], .resolve 2] := by
  decide

/-- C5 amended: pending-file records installed by import-site are keyed
by (siteId, path) only — the peer is not part of the key — so the
installed state is independent of the peer argument, the key is
file:siteId:path, and a second request for the same (siteId, path) to any
peer overwrites the first handle. -/
theorem import_pending_key_site_path (s : TransferState)
    (peer1 peer2 siteId path : String) (h1 h2 : Nat) :
    (installFileRequest s peer1 siteId path h1).1
      = (installFileRequest s peer2 siteId path h1).1 ∧
    (installFileRequest s peer1 siteId path h1).2.1
      = fileReqKey siteId path ∧
    mapGet (fileReqKey siteId path)
      ((installFileRequest (installFileRequest s peer1 siteId path h1).1
        peer2 siteId path h2).1).pending = some h2 := by
  refine ⟨rfl, rfl, ?_⟩
  simp [installFileRequest, mapGet_mapSet]

/-- C6: requestFileList schedules its timeout at 30000 ms and the
per-file step of importSiteFromPeer schedules its timeout at 60000 ms;
when a timeout fires while its key is still pending, the promise is
rejected with the timeout Error and the pending entry is removed, so no
pending state remains. -/
theorem request_timeouts (s s2 : TransferState)
    (peerA peerB siteId path key : String) (hL hF hh : Nat)
    (hp : mapGet key s.pending = some hh) :
    (requestFileList s2 peerA siteId hL).2 = (listReqKey siteId, 30000) ∧
    (installFileRequest s2 peerB siteId path hF).2
      = (fileReqKey siteId path, 60000) ∧
    (timeoutFire s key).2 = [.rejectTimeout hh] ∧
    mapGet key (timeoutFire s key).1.pending = none := by
  refine ⟨rfl, rfl, ?_, ?_⟩
  · simp [timeoutFire, hp]
  · simp [timeoutFire, hp, mapGet_mapDel]

theorem request_timeouts_witness :
    mapGet (fileReqKey "site1" "a.txt")
      ((installFileRequest emptyTransfer "peerA" "site1" "a.txt" 5).1).pending
      = some 5 ∧
    ((requestFileList emptyTransfer "peerA" "site1" 9).2
        = (listReqKey "site1", 30000) ∧
      (installFileRequest emptyTransfer "peerB" "site1" "b.txt" 6).2
        = (fileReqKey "site1" "b.txt", 60000) ∧
      (timeoutFire (installFileRequest emptyTransfer "peerA" "site1"
          "a.txt" 5).1 (fileReqKey "site1" "a.txt")).2
        = [.rejectTimeout 5] ∧
      mapGet (fileReqKey "site1" "a.txt")
        (timeoutFire (installFileRequest emptyTransfer "peerA" "site1"
          "a.txt" 5).1 (fileReqKey "site1" "a.txt")).1.pending = none) :=
  ⟨by decide,
    request_timeouts
      (installFileRequest emptyTransfer "peerA" "site1" "a.txt" 5).1
      emptyTransfer "peerA" "peerB" "site1" "b.txt"
      (fileReqKey "site1" "a.txt") 9 6 5 (by decide)⟩

/-- A transfer state where only peerA has an active incoming transfer for
(site1, a.txt); peerB has none. -/
def startedElsewhere : TransferState :=
  (recvTransferMessage emptyTransfer "peerA"
    (.fileStart "site1" "a.txt" "text/plain" 3)).1

/-- C10: a file-chunk or file-end from a peer with no active
incoming-transfer record for that (peer, siteId, path) is ignored: the
state is unchanged, nothing is stored, and no pending request is
resolved. -/
theorem unsolicited_chunk_ignored (s : TransferState)
    (peer siteId path : String) (data : List Nat)
    (hnone : mapGet (transferKey peer siteId path) s.incoming = none) :
    recvTransferMessage s peer (.fileChunk siteId path data) = (s, []) ∧
    recvTransferMessage s peer (.fileEnd siteId path) = (s, []) := by
  constructor <;> simp [recvTransferMessage, hnone]

theorem unsolicited_chunk_ignored_witness :
    mapGet (transferKey "peerB" "site1" "a.txt")
      startedElsewhere.incoming = none ∧
    (recvTransferMessage startedElsewhere "peerB"
        (.fileChunk "site1" "a.txt" [1, 0, 64, 64]) = (startedElsewhere, []) ∧
      recvTransferMessage startedElsewhere "peerB"
        (.fileEnd "site1" "a.txt") = (startedElsewhere, [])) :=
  ⟨by decide,
    unsolicited_chunk_ignored startedElsewhere "peerB" "site1" "a.txt"
      [1, 0, 64, 64] (by decide)⟩

/-! ## Local HTTP interceptor (service worker handleLocalRequest)

The service worker resolves /local/siteId/... against the IndexedDB blob
store: direct key lookup, root index fallback, .html extension fallback,
directory index fallback, and finally a 404 debug page listing the files
available for the site.  The store is modelled as a function from site id
to the list of stored blobs for that site.  The JavaScript string
operations used by the worker (includes of a character, endsWith,
toLowerCase) are modelled over the underlying character lists. -/

/-- JavaScript str.includes(c) for a single character. -/
def strContainsChar (s : String) (c : Char) : Bool :=
  s.toList.contains c

/-- JavaScript str.endsWith(suffix). -/
def strEndsWith (s suffix : String) : Bool :=
  suffix.toList.isSuffixOf s.toList

/-- JavaScript str.toLowerCase(). -/
def strToLower (s : String) : String :=
  String.mk (s.toList.map Char.toLower)

/-- A stored blob record in the scrap_yard_content store. -/
structure StoredBlob where
  path : String
  contentType : String
  content : List Nat
  size : Nat
deriving DecidableEq

/-- getFileFromDB: lookup of the record keyed siteId/path. -/
def getFileFromDB (db : String → List StoredBlob) (siteId path : String) :
    Option StoredBlob :=
  (db siteId).find? (fun f => f.path = path)

/-- Response body: raw blob bytes or generated text. -/
inductive RespBody where
  | bytes (b : List Nat)
  | text (s : String)
deriving DecidableEq

/-- The Response the service worker constructs. -/
structure LocalResponse where
  status : Nat
  headers : List (String × String)
  body : RespBody
deriving DecidableEq

/-- filePath computation: joined remainder or index.html, appending
index.html to a trailing slash. -/
def computeFilePath (rest : List String) : String :=
  let fp := if rest.isEmpty then "index.html" else String.intercalate "/" rest
  if strEndsWith fp "/" then fp ++ "index.html" else fp

/-- The root fallback: any top-level index.html (case variants) or any
top-level .html file. -/
def rootIndexFind (files : List StoredBlob) : Option StoredBlob :=
  files.find? (fun f =>
    f.path = "index.html" || f.path = "Index.html" ||
      (!(strContainsChar f.path '/') &&
        strEndsWith (strToLower f.path) ".html"))

/-- The 404 debug page enumerating the files available for the site. -/
def debugHtml (filePath siteId : String) (files : List StoredBlob) :
    String :=
  let fileList := String.intercalate "\n"
    (files.map (fun f =>
      "<li>" ++ f.path ++ " (" ++ toString f.size ++ " bytes)</li>"))
  "<!DOCTYPE html>\n<html>\n<head><title>Debug - File Not Found</title>" ++
    "</head>\n<body>\n<h1>File not found: " ++ filePath ++
    "</h1>\n<h2>Site ID: " ++ siteId ++ "</h2>\n<h2>Available files (" ++
    toString files.length ++ "):</h2>\n<ul>" ++
    jsOrStr fileList "<li>No files found</li>" ++
    "</ul>\n</body>\n</html>"

/-- The body of handleLocalRequest once siteId and the path remainder are
extracted. -/
def serveLocal (db : String → List StoredBlob) (siteId : String)
    (rest : List String) : LocalResponse :=
  let filePath := computeFilePath rest
  let direct := getFileFromDB db siteId filePath
  let file : Option StoredBlob :=
    match direct with
    | some f => some f
    | none =>
        if filePath = "index.html" ∨ filePath = "" then
          rootIndexFind (db siteId)
        else none
  match file with
  | some f =>
      { status := 200,
        headers :=
          [("Content-Type", jsOrStr f.contentType "application/octet-stream"),
           ("Content-Length", toString f.size),
           ("X-Scrap-Yard", "cached")],
        body := .bytes f.content }
  | none =>
      match (if strContainsChar filePath '.' then none
        else getFileFromDB db siteId (filePath ++ ".html")) with
      | some h =>
          { status := 200,
            headers := [("Content-Type", "text/html"),
              ("X-Scrap-Yard", "cached")],
            body := .bytes h.content }
      | none =>
          match getFileFromDB db siteId (filePath ++ "/index.html") with
          | some ixf =>
              { status := 200,
                headers := [("Content-Type", "text/html"),
                  ("X-Scrap-Yard", "cached")],
                body := .bytes ixf.content }
          | none =>
              { status := 404,
                headers := [("Content-Type", "text/html")],
                body := .text (debugHtml filePath siteId (db siteId)) }

/-- handleLocalRequest over the split, filtered path segments. -/
def handleLocalRequest (db : String → List StoredBlob)
    (parts : List String) : LocalResponse :=
  match parts with
  | "local" :: siteId :: rest => serveLocal db siteId rest
  | _ => { status := 404, headers := [], body := .text "Not Found" }

/-- A concrete stored blob used to exercise the interceptor. -/
def sampleBlob : StoredBlob :=
  { path := "index.html", contentType := "text/html",
    content := [60, 104], size := 2 }

/-- A store holding one site with a single index.html blob. -/
def cachedDb : String → List StoredBlob := fun sid =>
  if sid = "site1" then [sampleBlob] else []

/-- C9 counterexample: a request resolving to a stored blob answers with
the diagnostic header X-Scrap-Yard: cached; no X-Origin header is set,
contradicting the claimed X-Origin: cached. -/
theorem local_header_cex :
    (handleLocalRequest cachedDb ["local", "site1", "index.html"]).status
      = 200 ∧
    ("X-Scrap-Yard", "cached") ∈
      (handleLocalRequest cachedDb ["local", "site1", "index.html"]).headers ∧
    ("X-Origin", "cached") ∉
      (handleLocalRequest cachedDb ["local", "site1", "index.html"]).headers := by
  decide

/-- C9 amended: a request whose computed file path resolves directly to a
stored blob returns 200 with the blob's Content-Type (falling back to
application/octet-stream) and the diagnostic header X-Scrap-Yard: cached;
a request for which every lookup and fallback misses returns 404 with a
text/html body enumerating the files available for the site. -/
theorem local_request_responses (db db2 : String → List StoredBlob)
    (siteId siteId2 : String) (rest rest2 : List String) (f : StoredBlob)
    (hdirect : getFileFromDB db siteId (computeFilePath rest) = some f)
    (h1 : getFileFromDB db2 siteId2 (computeFilePath rest2) = none)
    (h2 : rootIndexFind (db2 siteId2) = none)
    (h3 : getFileFromDB db2 siteId2 (computeFilePath rest2 ++ ".html")
      = none)
    (h4 : getFileFromDB db2 siteId2
      (computeFilePath rest2 ++ "/index.html") = none) :
    handleLocalRequest db ("local" :: siteId :: rest)
      = { status := 200,
          headers :=
            [("Content-Type",
                jsOrStr f.contentType "application/octet-stream"),
             ("Content-Length", toString f.size),
             ("X-Scrap-Yard", "cached")],
          body := .bytes f.content } ∧
    handleLocalRequest db2 ("local" :: siteId2 :: rest2)
      = { status := 404,
          headers := [("Content-Type", "text/html")],
          body := .text (debugHtml (computeFilePath rest2) siteId2
            (db2 siteId2)) } := by
  constructor
  · simp [handleLocalRequest, serveLocal, hdirect]
  · simp [handleLocalRequest, serveLocal, h1, h2, h3, h4]

theorem local_request_responses_witness :
    getFileFromDB cachedDb "site1" (computeFilePath ["index.html"])
      = some sampleBlob ∧
    getFileFromDB cachedDb "site2" (computeFilePath ["missing.txt"])
      = none ∧
    rootIndexFind (cachedDb "site2") = none ∧
    getFileFromDB cachedDb "site2" (computeFilePath ["missing.txt"]
      ++ ".html") = none ∧
    getFileFromDB cachedDb "site2" (computeFilePath ["missing.txt"]
      ++ "/index.html") = none ∧
    (handleLocalRequest cachedDb ["local", "site1", "index.html"]
      = { status := 200,
          headers :=
            [("Content-Type",
                jsOrStr sampleBlob.contentType "application/octet-stream"),
             ("Content-Length", toString sampleBlob.size),
             ("X-Scrap-Yard", "cached")],
          body := .bytes sampleBlob.content } ∧
    handleLocalRequest cachedDb ["local", "site2", "missing.txt"]
      = { status := 404,
          headers := [("Content-Type", "text/html")],
          body := .text (debugHtml (computeFilePath ["missing.txt"])
            "site2" (cachedDb "site2")) }) :=
  ⟨by decide, by decide, by decide, by decide, by decide,
    local_request_responses cachedDb cachedDb "site1" "site2"
      ["index.html"] ["missing.txt"] sampleBlob
      (by decide) (by decide) (by decide) (by decide) (by decide)⟩

/-! ## applyChanges batching (ledger.js CRSQLiteDB.applyChanges)

applyChanges iterates over the batch, base64-decodes pk and site_id of
each record and awaits one INSERT INTO crsql_changes per record, with no
surrounding transaction; a rejected insert aborts the loop (and skips
refreshVersion) while the inserts already awaited stay committed.  The
database insert (including its possible failure, e.g. a decode or
constraint error inside the cr-sqlite extension) is the parameter ins. -/

/-- A change record as sent on the wire (getChanges output shape). -/
structure ChangeRec where
  table : String
  pk : String
  cid : String
  val : Option String
  col_version : Nat
  db_version : Nat
  site_id : String
  cl : Nat
  seq : Nat
deriving DecidableEq

/-- The applyChanges loop: insert records one at a time; stop at the
first failing insert, keeping the state the successful inserts built. -/
def applyChangesRun {σ : Type} (ins : σ → ChangeRec → Except String σ) :
    σ → List ChangeRec → σ × Option String
  | s, [] => (s, none)
  | s, c :: rest =>
      match ins s c with
      | .ok s' => applyChangesRun ins s' rest
      | .error e => (s, some e)

/-- Folding a batch assuming every insert succeeds (none on failure). -/
def applyOk {σ : Type} (ins : σ → ChangeRec → Except String σ) :
    σ → List ChangeRec → Option σ
  | s, [] => some s
  | s, c :: rest =>
      match ins s c with
      | .ok s' => applyOk ins s' rest
      | .error _ => none

/-- An insert standing for INSERT INTO crsql_changes that rejects records
naming an unknown table, as a constraint failure would. -/
def insDemo (s : List String) (c : ChangeRec) :
    Except String (List String) :=
  if c.table = "sites" then .ok (s ++ [c.pk]) else .error "constraint failed"

/-- A change record the demo insert accepts. -/
def goodRec : ChangeRec :=
  { table := "sites", pk := "cGsx", cid := "name", val := some "Alpha",
    col_version := 1, db_version := 5, site_id := "c2l0ZQ==", cl := 1,
    seq := 0 }

/-- A change record the demo insert rejects. -/
def badRec : ChangeRec :=
  { goodRec with table := "nope", pk := "cGsy" }

/-- C1 counterexample: applying the batch [goodRec, badRec] fails on the
second record, yet the store is neither fully updated nor unchanged: the
first record stays committed, so apply-changes partially commits. -/
theorem apply_changes_partial_commit_cex :
    (applyChangesRun insDemo [] [goodRec, badRec]).2
      = some "constraint failed" ∧
    (applyChangesRun insDemo [] [goodRec, badRec]).1 = ["cGsx"] ∧
    ["cGsx"] ≠ ([] : List String) ∧
    applyOk insDemo [] [goodRec, badRec] = none := by
  decide

/-- C1 amended: applyChanges has prefix semantics, not atomicity: a batch
either applies completely (when the loop reports no error, the final
state is the fold of the whole batch), or fails on some record c with
every record before c committed (the final state is exactly the fold of
the prefix before c) and the records from c on not applied. -/
theorem apply_changes_sequential {σ : Type}
    (ins : σ → ChangeRec → Except String σ) (s : σ)
    (cs : List ChangeRec) :
    ((applyChangesRun ins s cs).2 = none →
      applyOk ins s cs = some (applyChangesRun ins s cs).1) ∧
    (∀ e, (applyChangesRun ins s cs).2 = some e →
      ∃ done c rest, cs = done ++ c :: rest ∧
        applyOk ins s done = some (applyChangesRun ins s cs).1 ∧
        ins (applyChangesRun ins s cs).1 c = .error e) := by
  induction cs generalizing s with
  | nil =>
      exact ⟨fun _ => rfl, fun e he => by simp [applyChangesRun] at he⟩
  | cons c rest ih =>
      rcases hi : ins s c with e0 | s'
      · refine ⟨?_, ?_⟩
        · intro hnone
          simp [applyChangesRun, hi] at hnone
        · intro e he
          simp only [applyChangesRun, hi] at he ⊢
          refine ⟨[], c, rest, rfl, rfl, ?_⟩
          simp only [Option.some.injEq] at he
          rw [hi, he]
      · refine ⟨?_, ?_⟩
        · intro hnone
          simp only [applyChangesRun, hi] at hnone ⊢
          simp only [applyOk, hi]
          exact (ih s').1 hnone
        · intro e he
          simp only [applyChangesRun, hi] at he ⊢
          obtain ⟨done, c', rest', heq, hok, herr⟩ := (ih s').2 e he
          refine ⟨c :: done, c', rest', by rw [heq]; simp, ?_, herr⟩
          simp only [applyOk, hi]
          exact hok

theorem apply_changes_sequential_witness :
    (applyChangesRun insDemo [] [goodRec, badRec]).2
      = some "constraint failed" ∧
    (∃ done c rest, [goodRec, badRec] = done ++ c :: rest ∧
      applyOk insDemo [] done
        = some (applyChangesRun insDemo [] [goodRec, badRec]).1 ∧
      insDemo (applyChangesRun insDemo [] [goodRec, badRec]).1 c
        = .error "constraint failed") :=
  ⟨by decide,
    (apply_changes_sequential insDemo [] [goodRec, badRec]).2
      "constraint failed" (by decide)⟩

end ScrapYard
